import Mathlib

/-!
Shallow embedding of the `data_sources` repository (files `funding.py` and
`liqs.py`) and verification of its specification.

Python strings are modelled by `String`; the handful of Python string
operations the sources use (`str.replace(pat, '')`, `str.upper`,
`str.startswith`) are given executable structural definitions below, because
the corresponding core-library functions do not reduce inside the kernel.
Python floats are modelled by exact rationals `ℚ`.  Python dicts (which
preserve insertion order and overwrite in place) are modelled by ordered
association lists.
-/

/-- Uppercasing of an ASCII string: models Python `str.upper()`. -/
def pyUpper (s : String) : String := ⟨s.data.map Char.toUpper⟩

/-- Fuel-indexed worker for `pyRemove`: scans left to right and drops every
non-overlapping occurrence of `pat`.  The fuel is the length of the scanned
list, which bounds the number of steps. -/
def removeAllAux (pat : List Char) : Nat → List Char → List Char
  | _, [] => []
  | 0, cs => cs
  | fuel + 1, c :: cs =>
    if pat.isPrefixOf (c :: cs) then removeAllAux pat fuel (List.drop pat.length (c :: cs))
    else c :: removeAllAux pat fuel cs

/-- Python `s.replace(pat, '')` for a nonempty `pat`: removes every
non-overlapping occurrence of `pat`, scanning left to right. -/
def pyRemove (s pat : String) : String := ⟨removeAllAux pat.data s.data.length s.data⟩

/-- Python `s.startswith(pre)`. -/
def pyStartsWith (s pre : String) : Bool := pre.data.isPrefixOf s.data

/-! ### funding.py: configuration and the shared rate aggregate -/

/-- funding.py line 21: the monitored trading pairs. -/
def symbols : List String := ["btcusdt", "ethusdt", "solusdt", "xrpusdt", "bnbusdt", "dogeusdt"]

/-- funding.py line 23: `[symbol.replace('usdt', '').upper() for symbol in symbols]`. -/
def display_names : List String := symbols.map (fun s => pyUpper (pyRemove s "usdt"))

/-- The rate aggregate: an insertion-ordered dict from display name to the
latest annualized rate, `none` meaning the instrument has not yet received a
message.  Models the Python dict `current_rates`. -/
abbrev Rates := List (String × Option ℚ)

/-- funding.py lines 32-34: `current_rates = \x7bname: None for name in display_names\x7d`. -/
def current_rates : Rates := display_names.map (fun name => (name, none))

/-- Python dict assignment `d[k] = v`: overwrites the value of an existing key
in place (preserving its position), appends a new entry otherwise. -/
def dictSet : Rates → String → Option ℚ → Rates
  | [], k, v => [(k, v)]
  | (k0, v0) :: rest, k, v =>
    if k0 = k then (k, v) :: rest else (k0, v0) :: dictSet rest k v

/-- Python dict lookup `d[k]`: `some value` when the key is present, `none`
modelling a `KeyError`. -/
def dictLookup : Rates → String → Option (Option ℚ)
  | [], _ => none
  | (k0, v0) :: rest, k => if k0 = k then some v0 else dictLookup rest k

/-- The key list of the aggregate dict, in insertion order. -/
def dictKeys (d : Rates) : List String := d.map Prod.fst

/-- funding.py line 95: `yearly_funding_rate = (funding_rate * 3 * 365) * 100`. -/
def yearly_funding_rate (funding_rate : ℚ) : ℚ := (funding_rate * 3 * 365) * 100

/-- funding.py line 98 (under `data_lock`): `current_rates[display_name] = v`. -/
def update (rates : Rates) (display_name : String) (v : ℚ) : Rates :=
  dictSet rates display_name (some v)

/-- A sequence of `update` calls applied to the aggregate, in order.  Updates
from different stream connections are serialized by `data_lock`, so a trace is
a single interleaved list. -/
def applyUpdates (rates : Rates) : List (String × ℚ) → Rates
  | [] => rates
  | (name, v) :: rest => applyUpdates (update rates name v) rest

/-- funding.py line 142 (under `data_lock`): `snapshot = current_rates.copy()`.
The whole copy happens inside one critical section, so the snapshot is exactly
the aggregate state at one instant of the serialized trace. -/
def snapshot (rates : Rates) : Rates := rates

/-- Specification-side definition: the value of the last `update` applied for
`name` in a trace, or `none` if the trace never updated `name`. -/
def lastUpdate : List (String × ℚ) → String → Option ℚ
  | [], _ => none
  | (n, v) :: rest, name =>
    match lastUpdate rest name with
    | some w => some w
    | none => if n = name then some v else none

/-! ### funding.py: CSV persistence of snapshots -/

/-- One data row of `funding_rates.csv`: the minute timestamp plus, for each
display name in column order, the cell read from the snapshot
(`rates[name]`, formatted as a two-decimal percentage on disk; the outer
`Option` marks the impossible missing-key case). -/
structure FundingRow where
  time : String
  cells : List (Option (Option ℚ))
deriving DecidableEq

/-- funding.py lines 54-70: `write_to_csv(timestamp, rates)`.  The file is
modelled by its list of data rows; the write is skipped when
`None in rates.values()`, otherwise one row is appended. -/
def write_to_csv (timestamp : String) (rates : Rates) (file : List FundingRow) :
    List FundingRow :=
  if none ∈ rates.map Prod.snd then file
  else file ++ [⟨timestamp, display_names.map (fun name => dictLookup rates name)⟩]

/-! ### funding.py: the per-connection receive loop -/

/-- One frame delivered on a funding websocket connection: a frame whose JSON
parse succeeds and carries raw rate `r`, a frame whose parse raises
`json.JSONDecodeError`, or an abrupt `ConnectionClosed`. -/
inductive FundingFrame
  | valid (r : ℚ)
  | malformed
  | closed
deriving DecidableEq

/-- funding.py lines 87-101: the receive loop of one connection in
`continuous_funding_stream`.  Valid frames update the aggregate under the
lock.  A `json.loads` failure (line 91) raises out of the inner `while` and
out of the `async with connect(...)` block — there is no handler inside the
loop — so the websocket connection is closed and the frames it would still
have delivered are returned unconsumed; the handlers at lines 103-111 sit
outside the connection context.  The result is the aggregate state reached
and the frames left undelivered when the connection was torn down. -/
def fundingReceiveLoop (display_name : String) :
    List FundingFrame → Rates → Rates × List FundingFrame
  | [], rates => (rates, [])
  | FundingFrame.valid r :: rest, rates =>
    fundingReceiveLoop display_name rest
      (dictSet rates display_name (some (yearly_funding_rate r)))
  | FundingFrame.malformed :: rest, rates => (rates, rest)
  | FundingFrame.closed :: rest, rates => (rates, rest)

/-- funding.py lines 84-111: the supervising `while True` of
`continuous_funding_stream`.  Each element of the outer list is the frame
sequence of one connection attempt; when the inner receive loop ends (its
exception is caught at lines 103-111 and the task sleeps), the loop opens the
next connection. -/
def fundingSupervisor (display_name : String) : List (List FundingFrame) → Rates → Rates
  | [], rates => rates
  | conn :: rest, rates =>
    fundingSupervisor display_name rest (fundingReceiveLoop display_name conn rates).1

/-- funding.py line 105 and line 111: fixed 5-second sleep before reconnecting
after `ConnectionClosed` or an unexpected error. -/
def funding_reconnect_sleep : ℚ := 5

/-- funding.py line 108: fixed 1-second sleep before reconnecting after a
`json.JSONDecodeError`. -/
def funding_decode_sleep : ℚ := 1

/-! ### funding.py: the minute-boundary scheduler -/

/-- funding.py lines 123-126: `seconds_to_next_minute = 60 - now.second`,
reset to `0` when it equals `60` (i.e. exactly at `:00`). -/
def seconds_to_next_minute (second : Nat) : Nat :=
  if 60 - second = 60 then 0 else 60 - second

/-- funding.py line 129: `seconds_to_next_minute * 1_000_000 - now.microsecond`
as a (possibly negative) integer. -/
def microseconds_to_wait (second microsecond : Nat) : Int :=
  (seconds_to_next_minute second : Int) * 1000000 - (microsecond : Int)

/-- funding.py line 130: `wait_time = microseconds_to_wait / 1_000_000`
(Python true division, an exact rational here). -/
def wait_time (second microsecond : Nat) : ℚ :=
  (microseconds_to_wait second microsecond : ℚ) / 1000000

/-- Semantics of `asyncio.sleep(wait_time)`: a non-positive argument returns
immediately, i.e. the actual time slept is `max wait_time 0`. -/
def effective_sleep (w : ℚ) : ℚ := max w 0

/-- funding.py line 167: the fixed sleep after a collection cycle, before the
precise wait is recomputed. -/
def post_collection_sleep : ℚ := 55

/-- funding.py lines 148-157: the `(text_color, back_color)` pair chosen for a
rate value by the if/elif chain, first match winning. -/
def rate_colors (rate : ℚ) : String × String :=
  if rate > 50 then ("black", "on_red")
  else if rate > 30 then ("black", "on_yellow")
  else if rate > 5 then ("black", "on_cyan")
  else if rate < -10 then ("black", "on_green")
  else ("black", "on_light_green")

/-! ### liqs.py: configuration, the liquidation filter and its logs -/

/-- liqs.py line 16: the watch-list. -/
def TOKENS_TO_WATCH : List String := ["BTC", "ETH", "SOL", "XRP", "AVAX", "BNB"]

/-- One parsed forced-order object (the `'o'` payload of a liquidation frame).
The numeric fields `z` (filled accumulated quantity) and `p` (price) carry the
result of `float(...)`: `none` models a missing key or a `ValueError`.  The
remaining fields are kept as raw strings as the code does. -/
structure Order where
  s : String
  S : String
  T : Int
  z : Option ℚ
  p : Option ℚ
  o : String
  f : String
  q : String
  ap : String
  X : String
  l : String
deriving DecidableEq

/-- liqs.py lines 71-75: first token of the watch-list that is a prefix of the
stripped symbol (`break` on the first hit), `none` if there is no match. -/
def base_token (symbol : String) : Option String :=
  TOKENS_TO_WATCH.find? (fun token => pyStartsWith symbol token)

/-- liqs.py line 102: `"L LIQ" if side == "SELL" else 'S LIQ'` — a forced SELL
closes a long position. -/
def liquidation_type (side : String) : String :=
  if side = "SELL" then "L LIQ" else "S LIQ"

/-- liqs.py line 105: bold emphasis above 10000 USD. -/
def emphasized (usd_size : ℚ) : Bool := usd_size > 10000

/-- One row appended to a liquidation CSV: the order's fields plus the derived
`usd_size` (liqs.py lines 111-124).  The per-token file additionally renders
`time_est`, a display formatting of the `T` field already carried here. -/
structure LiqRow where
  order : Order
  usd_size : ℚ
deriving DecidableEq

/-- The persistent state of liqs.py: the main CSV's data rows and, per watched
token, that token's CSV data rows. -/
structure LiqState where
  mainLog : List LiqRow
  tokenLogs : List (String × List LiqRow)
deriving DecidableEq

/-- liqs.py lines 40-49: at startup every watched token has its own (empty)
file. -/
def liq_state_init : LiqState :=
  ⟨[], TOKENS_TO_WATCH.map (fun token => (token, []))⟩

/-- Append one row to the log of token `tok` (liqs.py lines 136-141). -/
def appendTokenRow : List (String × List LiqRow) → String → LiqRow → List (String × List LiqRow)
  | [], tok, row => [(tok, [row])]
  | (t, rows) :: rest, tok, row =>
    if t = tok then (t, rows ++ [row]) :: rest else (t, rows) :: appendTokenRow rest tok row

/-- The rows of token `tok`'s log. -/
def tokenLog (st : LiqState) (tok : String) : Option (List LiqRow) :=
  (st.tokenLogs.find? (fun entry => entry.1 = tok)).map Prod.snd

/-- liqs.py lines 64-143: `process_liquidation(order_data)` as a transformer of
the log state.  Steps in source order: strip the `USDT` suffix (line 68),
prefix-match against the watch-list (lines 71-79, discard on no match), parse
`z` and `p` (lines 85-91, discard when missing or invalid), compute
`usd_size = filled_quantity * price` (line 88), discard when
`usd_size < 3000` (lines 93-94), otherwise append one row to the main file
(lines 127-132) and one row to the matched token's file (lines 134-143). -/
def process_liquidation (order_data : Order) (st : LiqState) : LiqState :=
  match base_token (pyRemove order_data.s "USDT") with
  | none => st
  | some tok =>
    match order_data.z, order_data.p with
    | some filled_quantity, some price =>
      let usd_size := filled_quantity * price
      if usd_size < 3000 then st
      else
        ⟨st.mainLog ++ [⟨order_data, usd_size⟩],
         appendTokenRow st.tokenLogs tok ⟨order_data, usd_size⟩⟩
    | _, _ => st

/-! ### liqs.py: the receive loop and the backoff controller -/

/-- One frame on the liquidation websocket: a JSON frame carrying an `'o'`
order object, a JSON frame without one, a frame raising
`json.JSONDecodeError`, or a `ConnectionClosed` raised by `recv`. -/
inductive LiqFrame
  | withOrder (order_data : Order)
  | withoutOrder
  | malformed
  | closed
deriving DecidableEq

/-- liqs.py lines 157-171: the inner receive loop of `binance_liquidation`.
`ConnectionClosed` breaks out of the loop (the remaining frames of the
connection are never delivered); a decode failure or processing error is
caught inside the loop with `continue`, so the same connection keeps being
read. -/
def liqsReceiveLoop : List LiqFrame → LiqState → LiqState × List LiqFrame
  | [], st => (st, [])
  | LiqFrame.withOrder order_data :: rest, st =>
    liqsReceiveLoop rest (process_liquidation order_data st)
  | LiqFrame.withoutOrder :: rest, st => liqsReceiveLoop rest st
  | LiqFrame.malformed :: rest, st => liqsReceiveLoop rest st
  | LiqFrame.closed :: rest, st => (st, rest)

/-- liqs.py line 147: `backoff = 1`. -/
def initial_backoff : ℚ := 1

/-- liqs.py line 148: `max_backoff = 60`. -/
def max_backoff : ℚ := 60

/-- liqs.py line 179: `backoff = min(backoff * 2, max_backoff)` after each
failed connection attempt. -/
def next_backoff (backoff : ℚ) : ℚ := min (backoff * 2) max_backoff

/-- The backoff value in force at the n-th consecutive failure (0-indexed):
`initial_backoff` at the first failure, doubled-and-capped after each one. -/
def backoff_at : Nat → ℚ
  | 0 => initial_backoff
  | n + 1 => next_backoff (backoff_at n)

/-- liqs.py line 178: the actual reconnect sleep,
`backoff + 0.1 * backoff * frac` where `frac = get_event_loop().time() % 1`
ranges over `[0, 1)`. -/
def reconnect_sleep (backoff frac : ℚ) : ℚ := backoff + 0.1 * backoff * frac

/-- liqs.py line 155: `backoff = 1` again once a connection succeeds. -/
def backoff_reset : ℚ := 1

/-! ### Helper lemmas about the aggregate dict -/

theorem dictLookup_dictSet (d : Rates) (k name : String) (v : Option ℚ) :
    dictLookup (dictSet d k v) name = if k = name then some v else dictLookup d name := by
  induction d with
  | nil => by_cases h : k = name <;> simp [dictSet, dictLookup, h]
  | cons hd tl ih =>
    obtain ⟨k0, v0⟩ := hd
    by_cases hk : k0 = k
    · subst hk
      by_cases hn : k0 = name <;> simp [dictSet, dictLookup, hn]
    · by_cases hn : k0 = name
      · subst hn
        have hkn : ¬ k = k0 := fun h => hk h.symm
        simp [dictSet, dictLookup, hk, hkn]
      · simp [dictSet, dictLookup, hk, hn, ih]

theorem dictKeys_dictSet (d : Rates) (k : String) (v : Option ℚ) :
    dictKeys (dictSet d k v)
      = if k ∈ dictKeys d then dictKeys d else dictKeys d ++ [k] := by
  induction d with
  | nil => simp [dictSet, dictKeys]
  | cons hd tl ih =>
    obtain ⟨k0, v0⟩ := hd
    by_cases hk : k0 = k
    · subst hk; simp [dictSet, dictKeys]
    · have hne : ¬ k = k0 := fun h => hk h.symm
      have hstep : dictSet ((k0, v0) :: tl) k v = (k0, v0) :: dictSet tl k v := by
        simp [dictSet, hk]
      simp only [dictKeys, hstep, List.map_cons] at ih ⊢
      rw [ih]
      by_cases hmem : k ∈ List.map Prod.fst tl
      · rw [if_pos hmem, if_pos (List.mem_cons_of_mem _ hmem)]
      · rw [if_neg hmem, if_neg (by simp [hne, hmem]), List.cons_append]

theorem mem_dictKeys_dictSet (d : Rates) (k name : String) (v : Option ℚ)
    (h : name ∈ dictKeys d) : name ∈ dictKeys (dictSet d k v) := by
  rw [dictKeys_dictSet]
  split
  · exact h
  · exact List.mem_append_left _ h

theorem dictKeys_dictSet_of_mem (d : Rates) (k : String) (v : Option ℚ)
    (h : k ∈ dictKeys d) : dictKeys (dictSet d k v) = dictKeys d := by
  rw [dictKeys_dictSet, if_pos h]

theorem dictKeys_init (l : List String) :
    dictKeys (l.map (fun n => (n, (none : Option ℚ)))) = l := by
  induction l with
  | nil => rfl
  | cons hd tl ih => simp [dictKeys] at ih ⊢; exact ih

theorem dictLookup_init (l : List String) (name : String) (h : name ∈ l) :
    dictLookup (l.map (fun n => (n, (none : Option ℚ)))) name = some none := by
  induction l with
  | nil => simp at h
  | cons hd tl ih =>
    by_cases hn : hd = name
    · simp [dictLookup, hn]
    · have h' : name ∈ tl := by
        rcases List.mem_cons.1 h with h1 | h1
        · exact absurd h1.symm hn
        · exact h1
      simp [dictLookup, hn, ih h']

theorem applyUpdates_dictKeys (trace : List (String × ℚ)) :
    ∀ rates : Rates, (∀ u ∈ trace, u.1 ∈ dictKeys rates) →
      dictKeys (applyUpdates rates trace) = dictKeys rates := by
  induction trace with
  | nil => intro rates _; rfl
  | cons u rest ih =>
    intro rates h
    obtain ⟨n, v⟩ := u
    have hn : n ∈ dictKeys rates := h (n, v) (List.mem_cons_self _ _)
    have hkeys : dictKeys (dictSet rates n (some v)) = dictKeys rates :=
      dictKeys_dictSet_of_mem rates n (some v) hn
    have hrest := ih (dictSet rates n (some v))
      (fun u hu => by rw [hkeys]; exact h u (List.mem_cons_of_mem _ hu))
    calc dictKeys (applyUpdates rates ((n, v) :: rest))
        = dictKeys (applyUpdates (dictSet rates n (some v)) rest) := rfl
      _ = dictKeys rates := by rw [hrest, hkeys]

theorem applyUpdates_dictLookup (trace : List (String × ℚ)) :
    ∀ (rates : Rates) (name : String), name ∈ dictKeys rates →
      dictLookup (applyUpdates rates trace) name
        = match lastUpdate trace name with
          | some w => some (some w)
          | none => dictLookup rates name := by
  induction trace with
  | nil => intro rates name _; simp [applyUpdates, lastUpdate]
  | cons u rest ih =>
    intro rates name hmem
    obtain ⟨n, v⟩ := u
    have hmem' := mem_dictKeys_dictSet rates n name (some v) hmem
    have hstep : applyUpdates rates ((n, v) :: rest)
        = applyUpdates (dictSet rates n (some v)) rest := rfl
    rw [hstep, ih _ name hmem', dictLookup_dictSet]
    cases hlu : lastUpdate rest name with
    | some w => simp [lastUpdate, hlu]
    | none => by_cases hn : n = name <;> simp [lastUpdate, hlu, hn]

/-! ### Claim C1 -/

/-- C1: for every sequence of `update` calls to the rate aggregate followed by
a `snapshot`, the snapshot's value for each instrument equals the last update
applied for that instrument before the snapshot (`some w` for last value `w`,
`none` when no update ever arrived).  The characterization holds for every
instrument of one and the same post-trace snapshot, so no snapshot mixes pre-
and post-values of an update: both `update` (funding.py lines 97-98) and the
whole-map copy (lines 141-142) run inside `data_lock`, which the trace
semantics embeds by making each a single step of the serialized trace. -/
theorem c1_snapshot_last_update (trace : List (String × ℚ)) (name : String)
    (h : name ∈ display_names) :
    dictLookup (snapshot (applyUpdates current_rates trace)) name
      = some (lastUpdate trace name) := by
  have hkeys : name ∈ dictKeys current_rates := by
    rw [current_rates, dictKeys_init]; exact h
  have hmain := applyUpdates_dictLookup trace current_rates name hkeys
  rw [snapshot, hmain]
  cases hlu : lastUpdate trace name with
  | some w => rfl
  | none => rw [current_rates, dictLookup_init display_names name h]

/-- Witness for C1 at a concrete trace: two successive updates for BTC; the
snapshot holds the later one. -/
theorem c1_witness :
    dictLookup (snapshot (applyUpdates current_rates [("BTC", 2), ("BTC", 7)])) "BTC"
      = some (some 7) := by
  rw [c1_snapshot_last_update [("BTC", 2), ("BTC", 7)] "BTC" (by decide)]
  decide

/-! ### Claim C9 -/

/-- C9: the aggregate's key set is invariant.  It starts as exactly the six
configured display names (funding.py lines 21-23 and 32-34), `update` on an
existing key only overwrites its value and leaves the key list unchanged, and
every snapshot of a trace whose updates use configured names (as all stream
tasks do: they are spawned with `zip(symbols, display_names)`, lines 179-180)
has exactly the same key list. -/
theorem c9_key_set_invariant :
    display_names = ["BTC", "ETH", "SOL", "XRP", "BNB", "DOGE"] ∧
    dictKeys current_rates = display_names ∧
    (∀ (rates : Rates) (name : String) (v : ℚ), name ∈ dictKeys rates →
      dictKeys (update rates name v) = dictKeys rates) ∧
    (∀ trace : List (String × ℚ), (∀ u ∈ trace, u.1 ∈ display_names) →
      dictKeys (snapshot (applyUpdates current_rates trace)) = display_names) := by
  have hinit : dictKeys current_rates = display_names := by
    rw [current_rates, dictKeys_init]
  refine ⟨by decide, hinit, ?_, ?_⟩
  · intro rates name v hmem
    exact dictKeys_dictSet_of_mem rates name (some v) hmem
  · intro trace htrace
    rw [snapshot, applyUpdates_dictKeys trace current_rates
      (fun u hu => by rw [hinit]; exact htrace u hu), hinit]

/-- Witness for C9 at a concrete input: one update for BTC leaves the key set
equal to the six display names. -/
theorem c9_witness :
    dictKeys (update current_rates "BTC" 2) = dictKeys current_rates ∧
    dictKeys (snapshot (applyUpdates current_rates [("BTC", 2)])) = display_names :=
  ⟨c9_key_set_invariant.2.2.1 current_rates "BTC" 2 (by decide),
   c9_key_set_invariant.2.2.2 [("BTC", 2)] (by decide)⟩

/-! ### Claim C2 -/

/-- C2: `write_to_csv` writes zero rows when any instrument's sample is still
unset (`None in rates.values()`, funding.py lines 57-59) and appends exactly
one row when all instruments are populated (lines 61-70). -/
theorem c2_skip_incomplete_append_complete (timestamp : String) (rates : Rates)
    (file : List FundingRow) :
    (none ∈ rates.map Prod.snd → write_to_csv timestamp rates file = file) ∧
    (none ∉ rates.map Prod.snd →
      write_to_csv timestamp rates file
        = file ++ [⟨timestamp, display_names.map (fun name => dictLookup rates name)⟩] ∧
      (write_to_csv timestamp rates file).length = file.length + 1) := by
  constructor
  · intro h; simp [write_to_csv, h]
  · intro h
    constructor
    · simp [write_to_csv, h]
    · simp [write_to_csv, h]

/-- Witness for C2 at concrete snapshots: the startup snapshot (all six
samples unset) produces zero rows; a fully populated snapshot appends exactly
one row to the empty file. -/
theorem c2_witness :
    write_to_csv "12:01:00" current_rates [] = [] ∧
    (write_to_csv "12:01:00"
      (display_names.map (fun name => (name, some (1 : ℚ)))) []).length = 0 + 1 :=
  ⟨(c2_skip_incomplete_append_complete "12:01:00" current_rates []).1 (by decide),
   ((c2_skip_incomplete_append_complete "12:01:00"
      (display_names.map (fun name => (name, some (1 : ℚ)))) []).2 (by decide)).2⟩

/-! ### Claim C5 -/

/-- C5: processing an inbound funding frame with raw rate `r` stores
`r * 3 * 365 * 100` in the aggregate for that instrument (funding.py lines
94-98), and the raw rate `0.0001` yields the derived annualized value
`10.95`. -/
theorem c5_derived_annualized_value (display_name : String) (r : ℚ) (rates : Rates) :
    dictLookup ((fundingReceiveLoop display_name [FundingFrame.valid r] rates).1)
        display_name
      = some (some (r * 3 * 365 * 100)) ∧
    yearly_funding_rate (1/10000) = 10.95 := by
  constructor
  · simp [fundingReceiveLoop, yearly_funding_rate, dictLookup_dictSet]
  · norm_num [yearly_funding_rate]

/-! ### Claim C3 -/

/-- Counterexample to C3: in the funding receive loop a decode failure does
NOT leave the connection open.  On the frame sequence "malformed frame, then a
valid frame" delivered to one connection, the loop tears the connection down
at the malformed frame (the `json.JSONDecodeError` handler of funding.py sits
at lines 106-108, outside the `async with connect(...)` of line 87, so the
exception closes the websocket): the aggregate is left untouched (BTC is still
unset) and the following valid frame of that same connection is never
processed. -/
theorem c3_counterexample :
    fundingReceiveLoop "BTC" [FundingFrame.malformed, FundingFrame.valid 1] current_rates
      = (current_rates, [FundingFrame.valid 1]) ∧
    dictLookup current_rates "BTC" = some none :=
  ⟨rfl, by decide⟩

/-- C3 as amended: a decode failure never terminates the process, but the two
receive loops differ.  In the liquidation loop (liqs.py lines 157-171) the
`json.JSONDecodeError` handler is inside the inner `while` and `continue`s, so
the same connection keeps being read and the next valid frame on it is still
processed.  In the funding loop (funding.py lines 84-111) the handler is
outside the connection context, so a decode failure closes the connection and
leaves its remaining frames undelivered; the supervising loop then sleeps 1
second and opens a new connection, on which subsequent frames are processed
normally. -/
theorem c3_amended_decode_failure :
    (∀ (rest : List LiqFrame) (st : LiqState),
      liqsReceiveLoop (LiqFrame.malformed :: rest) st = liqsReceiveLoop rest st) ∧
    (∀ (order_data : Order) (rest : List LiqFrame) (st : LiqState),
      liqsReceiveLoop (LiqFrame.malformed :: LiqFrame.withOrder order_data :: rest) st
        = liqsReceiveLoop rest (process_liquidation order_data st)) ∧
    (∀ (display_name : String) (rest : List FundingFrame) (rates : Rates),
      fundingReceiveLoop display_name (FundingFrame.malformed :: rest) rates
        = (rates, rest)) ∧
    (∀ (display_name : String) (r : ℚ) (rates : Rates),
      fundingSupervisor display_name
          [[FundingFrame.malformed], [FundingFrame.valid r]] rates
        = dictSet rates display_name (some (yearly_funding_rate r))) :=
  ⟨fun _ _ => rfl, fun _ _ _ => rfl, fun _ _ _ => rfl, fun _ _ _ => rfl⟩

/-! ### Claim C4 -/

theorem backoff_at_closed_form (n : Nat) :
    backoff_at n = min (initial_backoff * 2 ^ n) max_backoff := by
  induction n with
  | zero => norm_num [backoff_at, initial_backoff, max_backoff]
  | succ n ih =>
    rw [backoff_at, next_backoff, ih]
    rcases le_total (initial_backoff * 2 ^ n) max_backoff with h | h
    · rw [min_eq_left h, pow_succ]
      ring_nf
    · rw [min_eq_right h, min_eq_right, min_eq_right]
      · calc max_backoff ≤ initial_backoff * 2 ^ n := h
          _ ≤ initial_backoff * 2 ^ (n + 1) := by
            have h2 : (2:ℚ) ^ n ≤ 2 ^ (n + 1) :=
              pow_le_pow_right₀ (by norm_num) (Nat.le_succ n)
            have h0 : (0:ℚ) ≤ initial_backoff := by norm_num [initial_backoff]
            exact mul_le_mul_of_nonneg_left h2 h0
      · have h0 : (0:ℚ) ≤ max_backoff := by norm_num [max_backoff]
        linarith

theorem backoff_at_nonneg (n : Nat) : 0 ≤ backoff_at n := by
  rw [backoff_at_closed_form]
  have h1 : (0:ℚ) ≤ initial_backoff * 2 ^ n := by
    have : (0:ℚ) ≤ 2 ^ n := by positivity
    norm_num [initial_backoff, this]
  have h2 : (0:ℚ) ≤ max_backoff := by norm_num [max_backoff]
  exact le_min h1 h2

/-- Counterexample to C4: the reconnect sleep can exceed `max_backoff`.  At
the seventh consecutive failure (attempt index 6) the base backoff has reached
the 60-second ceiling, and with the jitter factor `frac = 9/10` (i.e. the
event-loop clock's fractional second being 0.9) the actual sleep of liqs.py
line 178 is `60 + 0.1 * 60 * 0.9 = 65.4`, strictly above the 60-second
ceiling — so `nextDelay(attempt) <= maxDelay` fails. -/
theorem c4_counterexample :
    max_backoff < reconnect_sleep (backoff_at 6) (9/10) := by
  have h6 : backoff_at 6 = 60 := by
    rw [backoff_at_closed_form]
    norm_num [initial_backoff, max_backoff, min_def]
  rw [h6]
  norm_num [reconnect_sleep, max_backoff]

/-- C4 as amended: for the liquidation connection the BASE reconnect delay
equals `min(initial_backoff * 2 ^ attempt, max_backoff)` (1 s doubling up to a
60 s ceiling, liqs.py lines 147-148 and 179), is non-decreasing in the attempt
count and bounded by the ceiling, and resets to the initial value after any
successful connection (line 155).  The jitter added at line 178 is bounded by
one tenth of the base delay, so the actual sleep is always strictly below
`1.1 * max_backoff = 66` seconds — but, as the counterexample shows, it can
exceed `max_backoff` itself once the base delay has reached the ceiling. -/
theorem c4_amended_backoff :
    (∀ n : Nat, backoff_at n = min (initial_backoff * 2 ^ n) max_backoff) ∧
    (∀ n : Nat, backoff_at n ≤ backoff_at (n + 1)) ∧
    (∀ n : Nat, backoff_at n ≤ max_backoff) ∧
    backoff_reset = initial_backoff ∧
    (∀ (n : Nat) (frac : ℚ), 0 ≤ frac → frac < 1 →
      reconnect_sleep (backoff_at n) frac < (11/10) * max_backoff) := by
  have hle : ∀ n : Nat, backoff_at n ≤ max_backoff := by
    intro n
    rw [backoff_at_closed_form]
    exact min_le_right _ _
  refine ⟨backoff_at_closed_form, ?_, hle, by norm_num [backoff_reset, initial_backoff], ?_⟩
  · intro n
    rw [backoff_at_closed_form, backoff_at_closed_form]
    refine min_le_min ?_ (le_refl _)
    have h2 : (2:ℚ) ^ n ≤ 2 ^ (n + 1) :=
      pow_le_pow_right₀ (by norm_num) (Nat.le_succ n)
    have h0 : (0:ℚ) ≤ initial_backoff := by norm_num [initial_backoff]
    exact mul_le_mul_of_nonneg_left h2 h0
  · intro n frac hf0 hf1
    have hb0 : 0 ≤ backoff_at n := backoff_at_nonneg n
    have hb60 : backoff_at n ≤ 60 := by
      have := hle n
      rwa [max_backoff] at this
    have hmul : backoff_at n * frac ≤ 60 * frac :=
      mul_le_mul_of_nonneg_right hb60 hf0
    rw [reconnect_sleep, max_backoff]
    nlinarith [hmul, hf1, hb60]

/-- Witness for C4's amended statement at a concrete input: at attempt 6 with
jitter factor 1/2 the sleep stays below 66 seconds. -/
theorem c4_witness :
    reconnect_sleep (backoff_at 6) (1/2) < (11/10) * max_backoff :=
  c4_amended_backoff.2.2.2.2 6 (1/2) (by norm_num) (by norm_num)

/-! ### Claim C6 -/

theorem find?_eq_head?_filter {α : Type} (p : α → Bool) (l : List α) :
    l.find? p = (l.filter p).head? := by
  induction l with
  | nil => rfl
  | cons a l ih =>
    cases h : p a
    · rw [List.find?_cons, List.filter_cons, h, ih]
      rfl
    · rw [List.find?_cons, List.filter_cons, h]
      rfl

theorem process_liquidation_no_match (order_data : Order) (st : LiqState)
    (h : base_token (pyRemove order_data.s "USDT") = none) :
    process_liquidation order_data st = st := by
  unfold process_liquidation
  rw [h]

theorem process_liquidation_below_min (order_data : Order) (st : LiqState)
    (z p : ℚ) (hz : order_data.z = some z) (hp : order_data.p = some p)
    (hmin : z * p < 3000) :
    process_liquidation order_data st = st := by
  unfold process_liquidation
  cases hb : base_token (pyRemove order_data.s "USDT") with
  | none => rfl
  | some tok =>
    rw [hz, hp]
    simp [hmin]

theorem process_liquidation_hit (order_data : Order) (st : LiqState) (tok : String)
    (z p : ℚ) (hb : base_token (pyRemove order_data.s "USDT") = some tok)
    (hz : order_data.z = some z) (hp : order_data.p = some p)
    (hmin : ¬ z * p < 3000) :
    process_liquidation order_data st
      = ⟨st.mainLog ++ [⟨order_data, z * p⟩],
         appendTokenRow st.tokenLogs tok ⟨order_data, z * p⟩⟩ := by
  unfold process_liquidation
  rw [hb, hz, hp]
  simp [hmin]

/-- The liquidation order of the specification's worked example: symbol
`BTCUSDT`, side `SELL`, price `90000`, filled accumulated quantity `z`
(liqs.py field names). -/
def btc_order (z : ℚ) : Order :=
  ⟨"BTCUSDT", "SELL", 1700000000000, some z, some 90000,
   "LIQUIDATION", "IOC", "0.5", "90000", "FILLED", "0.5"⟩

/-- C6: a liquidation's symbol is stripped of the quote-currency string and
prefix-matched against the watch-list, the first match in list order winning
(`find?` equals the head of the filtered list); a matched token lies in the
watch-list and is a prefix of the stripped symbol; no match means discard;
USD notional is filled quantity times price; events with notional below 3000
are discarded entirely; qualifying events append one row to the global log and
one to the matched category's log; side `SELL` renders as a long liquidation
(`"L LIQ"`) and any other side as short.  Concretely, `BTCUSDT`/`SELL` with
filled quantity `0.5` at price `90000` has notional `45000`, category `BTC`,
is a long liquidation and lands in both logs, while the same event with
filled quantity `0.01` (notional `900`) leaves the logs untouched. -/
theorem c6_liquidation_filter :
    (∀ (order_data : Order) (st : LiqState),
      base_token (pyRemove order_data.s "USDT") = none →
      process_liquidation order_data st = st) ∧
    (∀ symbol : String,
      base_token symbol
        = (TOKENS_TO_WATCH.filter (fun token => pyStartsWith symbol token)).head?) ∧
    (∀ symbol tok : String, base_token symbol = some tok →
      tok ∈ TOKENS_TO_WATCH ∧ pyStartsWith symbol tok = true) ∧
    (∀ (order_data : Order) (st : LiqState) (z p : ℚ),
      order_data.z = some z → order_data.p = some p → z * p < 3000 →
      process_liquidation order_data st = st) ∧
    (∀ (order_data : Order) (st : LiqState) (tok : String) (z p : ℚ),
      base_token (pyRemove order_data.s "USDT") = some tok →
      order_data.z = some z → order_data.p = some p → ¬ z * p < 3000 →
      process_liquidation order_data st
        = ⟨st.mainLog ++ [⟨order_data, z * p⟩],
           appendTokenRow st.tokenLogs tok ⟨order_data, z * p⟩⟩) ∧
    liquidation_type "SELL" = "L LIQ" ∧
    (∀ side : String, ¬ side = "SELL" → liquidation_type side = "S LIQ") ∧
    (process_liquidation (btc_order (1/2)) liq_state_init).mainLog
      = [⟨btc_order (1/2), 45000⟩] ∧
    tokenLog (process_liquidation (btc_order (1/2)) liq_state_init) "BTC"
      = some [⟨btc_order (1/2), 45000⟩] ∧
    liquidation_type (btc_order (1/2)).S = "L LIQ" ∧
    process_liquidation (btc_order (1/100)) liq_state_init = liq_state_init := by
  have hval : (1 : ℚ)/2 * 90000 = 45000 := by norm_num
  have hbase : base_token (pyRemove (btc_order (1/2)).s "USDT") = some "BTC" := by decide
  have hhit := process_liquidation_hit (btc_order (1/2)) liq_state_init "BTC"
    (1/2) 90000 hbase rfl rfl (by norm_num)
  rw [hval] at hhit
  refine ⟨process_liquidation_no_match, ?_, ?_, process_liquidation_below_min, ?_, ?_, ?_, ?_, ?_, ?_, ?_⟩
  · intro symbol
    exact find?_eq_head?_filter (fun token => pyStartsWith symbol token) TOKENS_TO_WATCH
  · intro symbol tok h
    exact ⟨List.mem_of_find?_eq_some h, List.find?_some h⟩
  · intro order_data st tok z p hb hz hp hmin
    exact process_liquidation_hit order_data st tok z p hb hz hp hmin
  · decide
  · intro side h
    unfold liquidation_type
    rw [if_neg h]
  · rw [hhit]
    simp [liq_state_init]
  · rw [hhit]
    simp [tokenLog, appendTokenRow, liq_state_init, TOKENS_TO_WATCH]
  · decide
  · exact process_liquidation_below_min (btc_order (1/100)) liq_state_init
      (1/100) 90000 rfl rfl (by norm_num)

/-- Witness for C6 at a concrete input: the sub-threshold event (filled
quantity 0.01, notional 900) is discarded entirely. -/
theorem c6_witness :
    process_liquidation (btc_order (1/100)) liq_state_init = liq_state_init :=
  c6_liquidation_filter.2.2.2.1 (btc_order (1/100)) liq_state_init (1/100) 90000
    rfl rfl (by norm_num)

/-! ### Claim C7 -/

/-- Counterexample to C7: started at `12:00:00.500` UTC (second component 0,
microsecond component 500000), the remaining time to the next wall-clock `:00`
is `59.5` seconds, but the computed first wait is `-0.5` seconds — funding.py
lines 125-126 reset `seconds_to_next_minute` to 0 at second `:00` and line 129
then subtracts the microsecond part — so the scheduler's first wait does not
equal the remaining time to the next minute boundary, and the first trigger
does not land on one. -/
theorem c7_counterexample :
    wait_time 0 500000 = -(1/2) ∧ wait_time 0 500000 ≠ 59.5 := by
  have h : wait_time 0 500000 = -(1/2) := by
    norm_num [wait_time, microseconds_to_wait, seconds_to_next_minute]
  refine ⟨h, ?_⟩
  rw [h]
  norm_num

/-- C7 as amended: whenever the scheduler computes its wait at a wall-clock
time whose second component lies in 1..59, the wait equals the remaining time
to the next `:00` second (UTC) to sub-second (microsecond) precision, so the
trigger lands exactly on the next minute boundary; in particular started at
`12:00:37.250` UTC the computed wait is `22.75` seconds, landing the first
trigger at `12:01:00.000`.  (When the second component is 0 and the
microsecond component is positive the computed wait is negative and the
trigger fires immediately instead.)  After acting, the scheduler sleeps the
fixed duration 55 s, shorter than 60 s, before recomputing the precise wait
(funding.py line 167). -/
theorem c7_amended_first_wait (second microsecond : Nat)
    (h1 : 1 ≤ second) (h2 : second ≤ 59) (_h3 : microsecond < 1000000) :
    wait_time 37 250000 = 22.75 ∧
    ((second : ℚ) * 1000000 + microsecond) + wait_time second microsecond * 1000000
      = 60 * 1000000 ∧
    post_collection_sleep = 55 ∧ post_collection_sleep < 60 := by
  refine ⟨?_, ?_, by norm_num [post_collection_sleep], by norm_num [post_collection_sleep]⟩
  · norm_num [wait_time, microseconds_to_wait, seconds_to_next_minute]
  · have hstm : seconds_to_next_minute second = 60 - second := by
      unfold seconds_to_next_minute
      rw [if_neg]
      omega
    have h60 : second ≤ 60 := by omega
    rw [wait_time, microseconds_to_wait, hstm, div_mul_cancel₀]
    · push_cast [Nat.cast_sub h60]
      ring
    · norm_num

/-- Witness for C7's amended statement at the concrete start time
`12:00:37.250` UTC: the wait is 22.75 s and the trigger lands at
`12:01:00.000` (37.25 s into the minute plus the wait equals 60 s). -/
theorem c7_witness :
    wait_time 37 250000 = 22.75 ∧
    ((37 : ℚ) * 1000000 + (250000 : Nat)) + wait_time 37 250000 * 1000000
      = 60 * 1000000 :=
  ⟨(c7_amended_first_wait 37 250000 (by norm_num) (by norm_num) (by norm_num)).1,
   (c7_amended_first_wait 37 250000 (by norm_num) (by norm_num) (by norm_num)).2.1⟩

/-! ### Claim C8 -/

/-- C8: the severity classification of a rate value is decided by the if/elif
chain in precedence order with first match winning, which is equivalent to the
interval reading: `on_red` (severe-high) exactly when the value exceeds 50,
`on_yellow` (high) exactly on (30, 50], `on_cyan` (elevated) exactly on
(5, 30], `on_green` (severe-low) exactly when below -10, and `on_light_green`
(neutral) exactly on [-10, 5].  The classification is presentation-only: the
persisted result of `write_to_csv` is a function of the timestamp and the
snapshot alone (the file is either unchanged or extended by the row built from
them; no color enters it). -/
theorem c8_classification_bands (rate : ℚ) :
    (rate_colors rate = ("black", "on_red") ↔ rate > 50) ∧
    (rate_colors rate = ("black", "on_yellow") ↔ 30 < rate ∧ rate ≤ 50) ∧
    (rate_colors rate = ("black", "on_cyan") ↔ 5 < rate ∧ rate ≤ 30) ∧
    (rate_colors rate = ("black", "on_green") ↔ rate < -10) ∧
    (rate_colors rate = ("black", "on_light_green") ↔ -10 ≤ rate ∧ rate ≤ 5) ∧
    (∀ (timestamp : String) (rates : Rates) (file : List FundingRow),
      write_to_csv timestamp rates file = file ∨
      write_to_csv timestamp rates file
        = file ++ [⟨timestamp, display_names.map (fun name => dictLookup rates name)⟩]) := by
  have hpersist : ∀ (timestamp : String) (rates : Rates) (file : List FundingRow),
      write_to_csv timestamp rates file = file ∨
      write_to_csv timestamp rates file
        = file ++ [⟨timestamp, display_names.map (fun name => dictLookup rates name)⟩] := by
    intro timestamp rates file
    unfold write_to_csv
    split
    · exact Or.inl rfl
    · exact Or.inr rfl
  refine ⟨?_, ?_, ?_, ?_, ?_, hpersist⟩ <;>
    · unfold rate_colors
      split_ifs with h1 h2 h3 h4 <;> simp_all <;>
        first
          | linarith
          | (constructor <;> linarith)
          | (intro h; linarith)

/-! ### Claim C10 -/

/-- C10: when the scheduler computes its wait at a wall-clock time whose
second component is 0 and whose microsecond component is positive, funding.py
lines 125-126 reset `seconds_to_next_minute` to 0, so the computed
`wait_time` equals minus the microsecond fraction and is negative; the
`asyncio.sleep` therefore returns immediately (effective sleep 0) and the
trigger fires within the current minute — before the next minute boundary —
instead of waiting for it. -/
theorem c10_negative_wait_at_minute_start (microsecond : Nat)
    (h0 : 0 < microsecond) (h1 : microsecond < 1000000) :
    wait_time 0 microsecond = -((microsecond : ℚ) / 1000000) ∧
    wait_time 0 microsecond < 0 ∧
    effective_sleep (wait_time 0 microsecond) = 0 ∧
    (microsecond : ℚ) + effective_sleep (wait_time 0 microsecond) * 1000000
      < 60 * 1000000 := by
  have hq0 : (0 : ℚ) < microsecond := by exact_mod_cast h0
  have he : wait_time 0 microsecond = -((microsecond : ℚ) / 1000000) := by
    rw [wait_time, microseconds_to_wait]
    norm_num [seconds_to_next_minute]
    ring
  have hneg : wait_time 0 microsecond < 0 := by
    rw [he]
    have hd : (0 : ℚ) < (microsecond : ℚ) / 1000000 :=
      div_pos hq0 (by norm_num)
    linarith
  have hzero : effective_sleep (wait_time 0 microsecond) = 0 := by
    rw [effective_sleep]
    exact max_eq_right (le_of_lt hneg)
  refine ⟨he, hneg, hzero, ?_⟩
  rw [hzero]
  have hq1 : (microsecond : ℚ) < 1000000 := by exact_mod_cast h1
  linarith

/-- Witness for C10 at the concrete time `12:00:00.250`: the computed wait is
negative and the effective sleep is zero. -/
theorem c10_witness :
    wait_time 0 250000 < 0 ∧ effective_sleep (wait_time 0 250000) = 0 :=
  ⟨(c10_negative_wait_at_minute_start 250000 (by norm_num) (by norm_num)).2.1,
   (c10_negative_wait_at_minute_start 250000 (by norm_num) (by norm_num)).2.2.1⟩
